import Mathlib

/-!
# Verification of the `echo` utility (src/tmp/echo.py)

Shallow embedding of the two operations of the program:

* `echo(*args, separator=' ', end='\n')` which calls
  `print(*args, sep=separator, end=end)`, and
* `main()` which reads `sys.argv[1:]` and either calls `print()`
  (no arguments) or `echo(*args)`.

All arguments are strings (they come from the process argument list), so
Python's `str()` conversion inside `print` is the identity and is omitted.
-/

namespace Echo

/-- Output string produced by one Python `print(*args, sep, end)` call:
the first argument is written, each later argument is preceded by one copy
of `sep` (a left fold over the remaining arguments), and `endStr` is
appended after the last argument.  `print()` with no positional arguments
writes only `endStr`. -/
def printOutput (args : List String) (sep endStr : String) : String :=
  (match args with
   | [] => ""
   | a :: rest => rest.foldl (fun acc x => acc ++ sep ++ x) a) ++ endStr

/-- `echo(*args, separator=' ', end='\n')` from src/tmp/echo.py: it
delegates to `print(*args, sep=separator, end=end)`. -/
def echo (args : List String) (separator : String := " ") (endStr : String := "\n") : String :=
  printOutput args separator endStr

/-- The sequence of write operations `main()` performs, one entry per
`print` call, as a function of `argv` = `sys.argv[1:]` (the program name
already stripped).  The source makes exactly one `print` call on either
branch: `print()` when `argv` is empty, `echo(*args)` otherwise. -/
def mainWrites (argv : List String) : List String :=
  if argv.isEmpty then [printOutput [] " " "\n"] else [echo argv]

/-- The full string `main()` sends to standard output (all writes in
order), assuming every write succeeds. -/
def runOutput (argv : List String) : String :=
  String.join (mainWrites argv)

/-- Result of one process invocation: what reached standard output, how
many write attempts were made, and the process exit status. -/
structure RunResult where
  output : String
  attempts : Nat
  exitCode : Nat
  deriving Repr, DecidableEq

/-- Attempt a list of pending writes against standard output.  `ok n`
tells whether the `n`-th write attempt succeeds.  Modelled from the spec:
the write/failure behaviour of the output stream is the Python runtime's,
not code under src/ — a failing write raises an exception which `main`
does not catch, so the attempt is not retried and no further write is
attempted.  Returns the strings that reached the stream, the number of
attempts made, and whether all writes succeeded. -/
def performWrites (ok : Nat → Bool) : Nat → List String → List String × Nat × Bool
  | _, [] => ([], 0, true)
  | n, w :: ws =>
    if ok n then
      let r := performWrites ok (n + 1) ws
      (w :: r.1, r.2.1 + 1, r.2.2)
    else
      ([], 1, false)

/-- `run(argv)`: the whole program on argument list `argv` (program name
excluded), under write-success oracle `ok`.  Exit status is 0 when every
write succeeded and 1 (the interpreter's status for an uncaught
exception) otherwise. -/
def run (ok : Nat → Bool) (argv : List String) : RunResult :=
  let r := performWrites ok 0 (mainWrites argv)
  { output := String.join r.1
    attempts := r.2.1
    exitCode := if r.2.2 then 0 else 1 }

/-- Transcribed from the spec's words (section 4.1): the concatenation of
the items with the separator inserted exactly once between each pair of
consecutive items, never before the first or after the last. -/
def specJoin (sep : String) : List String → String
  | [] => ""
  | [a] => a
  | a :: b :: rest => a ++ sep ++ specJoin sep (b :: rest)

/-- Number of occurrences of the character `c` in the string `s`. -/
def countChar (c : Char) (s : String) : Nat :=
  s.data.count c

/- ### Supporting lemmas -/

theorem str_append_assoc (a b c : String) : a ++ b ++ c = a ++ (b ++ c) := by
  apply String.ext
  simp [String.data_append, List.append_assoc]

theorem specJoin_append_head (sep x y : String) (rest : List String) :
    specJoin sep ((x ++ y) :: rest) = x ++ specJoin sep (y :: rest) := by
  cases rest with
  | nil => simp [specJoin]
  | cons c rs => simp [specJoin, str_append_assoc]

theorem foldl_sep_eq_specJoin (sep : String) (rest : List String) :
    ∀ a : String, rest.foldl (fun acc x => acc ++ sep ++ x) a = specJoin sep (a :: rest) := by
  induction rest with
  | nil => intro a; simp [specJoin]
  | cons b rs ih =>
    intro a
    rw [List.foldl_cons, ih (a ++ sep ++ b)]
    rw [str_append_assoc a sep b, specJoin_append_head, specJoin_append_head]
    rw [specJoin, ← str_append_assoc]

theorem printOutput_eq_specJoin (args : List String) (sep endStr : String) :
    printOutput args sep endStr = specJoin sep args ++ endStr := by
  cases args with
  | nil => simp [printOutput, specJoin]
  | cons a rest => simp [printOutput, foldl_sep_eq_specJoin]

theorem mainWrites_eq (argv : List String) :
    mainWrites argv = [printOutput argv " " "\n"] := by
  cases argv with
  | nil => rfl
  | cons a rest => rfl

theorem countChar_append (c : Char) (a b : String) :
    countChar c (a ++ b) = countChar c a + countChar c b := by
  simp [countChar, String.data_append]

theorem countChar_eq_zero (c : Char) (s : String) (h : c ∉ s.data) :
    countChar c s = 0 :=
  List.count_eq_zero.mpr h

theorem countChar_specJoin_space (S : List String) (hne : S ≠ [])
    (hfree : ∀ s ∈ S, ' ' ∉ s.data) :
    countChar ' ' (specJoin " " S) = S.length - 1 := by
  induction S with
  | nil => exact absurd rfl hne
  | cons a rest ih =>
    cases rest with
    | nil =>
      simp only [specJoin, List.length_cons, List.length_nil]
      exact countChar_eq_zero ' ' a (hfree a (List.mem_cons_self a []))
    | cons b rs =>
      have ha : countChar ' ' a = 0 :=
        countChar_eq_zero ' ' a (hfree a (List.mem_cons_self a _))
      have hrest : ∀ s ∈ b :: rs, ' ' ∉ s.data := fun s hs =>
        hfree s (List.mem_cons_of_mem a hs)
      have hih := ih (List.cons_ne_nil b rs) hrest
      rw [specJoin, countChar_append, countChar_append, ha, hih]
      simp [countChar, Nat.add_comm]

theorem runOutput_eq (argv : List String) :
    runOutput argv = specJoin " " argv ++ "\n" := by
  have hj : ∀ s : String, String.join [s] = s := by
    intro s
    apply String.ext
    simp [String.join, String.data_append]
  rw [runOutput, mainWrites_eq, hj, printOutput_eq_specJoin]

/- ### Claims -/

/-- C1: for every finite sequence of string values and every separator and
terminator, `echo` emits the concatenation of the items with the separator
inserted exactly once between each pair of consecutive items (never before
the first or after the last), followed by the terminator appended once. -/
theorem echo_formats_as_spec (args : List String) (sep term : String) :
    echo args sep term = specJoin sep args ++ term :=
  printOutput_eq_specJoin args sep term

/-- C2: `run` exits with status 0 exactly when the write to standard
output succeeds; on failure the status is non-zero, no retry happens
(exactly one write attempt is made either way), and nothing reaches the
stream. -/
theorem run_exit_status (ok : Nat → Bool) (argv : List String) :
    ((run ok argv).exitCode = 0 ↔ ok 0 = true) ∧
    (run ok argv).attempts = 1 ∧
    (ok 0 = false → (run ok argv).output = "") := by
  unfold run
  rw [mainWrites_eq]
  by_cases h : ok 0 = true
  · simp [performWrites, h]
  · simp [performWrites, h, String.join]

theorem run_exit_status_witness :
    ((run (fun _ => false) ["hi"]).exitCode = 0 ↔ (fun _ => false : Nat → Bool) 0 = true) ∧
    (run (fun _ => false) ["hi"]).attempts = 1 ∧
    ((fun _ => false : Nat → Bool) 0 = false → (run (fun _ => false) ["hi"]).output = "") :=
  run_exit_status (fun _ => false) ["hi"]

/-- C3 (counterexample): with `S = ["a b"]` the output `"a b\n"` contains
one occurrence of the separator `" "`, not `len(S) - 1 = 0`. -/
theorem echo_space_count_counterexample :
    ¬ (countChar ' ' (echo ["a b"] " " "\n") = (["a b"] : List String).length - 1) := by
  decide

/-- C3 (amended): for nonempty `S`, `echo S " " "\n"` always equals the
elements of `S` joined by single spaces followed by one newline; and when
additionally no element of `S` contains the space character, the output
contains exactly `len(S) - 1` occurrences of the separator. -/
theorem echo_space_join_count (S : List String) (hne : 0 < S.length) :
    echo S " " "\n" = specJoin " " S ++ "\n" ∧
    ((∀ s ∈ S, ' ' ∉ s.data) → countChar ' ' (echo S " " "\n") = S.length - 1) := by
  have hS : S ≠ [] := by
    intro hc; rw [hc] at hne; exact absurd hne (by decide)
  refine ⟨printOutput_eq_specJoin S " " "\n", fun hfree => ?_⟩
  rw [show echo S " " "\n" = printOutput S " " "\n" from rfl,
      printOutput_eq_specJoin, countChar_append,
      countChar_specJoin_space S hS hfree]
  simp [countChar]

theorem echo_space_join_count_witness :
    echo ["a", "b"] " " "\n" = specJoin " " ["a", "b"] ++ "\n" ∧
    ((∀ s ∈ (["a", "b"] : List String), ' ' ∉ s.data) →
      countChar ' ' (echo ["a", "b"] " " "\n") = (["a", "b"] : List String).length - 1) :=
  echo_space_join_count ["a", "b"] (by decide)

/-- C4: `echo` on the empty list of values emits exactly the terminator,
for every separator and terminator. -/
theorem echo_empty_eq_terminator (sep term : String) : echo [] sep term = term := by
  apply String.ext
  simp [echo, printOutput, String.data_append]

/-- C5: `run` on the empty argument list (with the write succeeding)
writes exactly `"\n"` and exits with status 0. -/
theorem run_empty_args :
    (run (fun _ => true) []).output = "\n" ∧ (run (fun _ => true) []).exitCode = 0 := by
  decide

/-- C6: the three example invocations produce `"hello\n"`,
`"hello world\n"` and `"a b c\n"`, the last containing exactly two space
separators. -/
theorem run_examples :
    (run (fun _ => true) ["hello"]).output = "hello\n" ∧
    (run (fun _ => true) ["hello", "world"]).output = "hello world\n" ∧
    (run (fun _ => true) ["a", "b", "c"]).output = "a b c\n" ∧
    countChar ' ' (run (fun _ => true) ["a", "b", "c"]).output = 2 := by
  decide

/-- C7: every invocation performs exactly one write to standard output,
and that single write carries the entire result (joined values followed by
the terminator). -/
theorem main_single_write (argv : List String) :
    (mainWrites argv).length = 1 ∧
    mainWrites argv = [specJoin " " argv ++ "\n"] := by
  rw [mainWrites_eq, printOutput_eq_specJoin]
  exact ⟨rfl, rfl⟩

/-- C8: `echo` is deterministic — two calls with identical values,
separator and terminator arguments yield identical output strings. -/
theorem echo_deterministic (a₁ a₂ : List String) (s₁ s₂ e₁ e₂ : String)
    (ha : a₁ = a₂) (hs : s₁ = s₂) (he : e₁ = e₂) :
    echo a₁ s₁ e₁ = echo a₂ s₂ e₂ := by
  rw [ha, hs, he]

theorem echo_deterministic_witness :
    echo ["x"] " " "\n" = echo ["x"] " " "\n" :=
  echo_deterministic ["x"] ["x"] " " " " "\n" "\n" rfl rfl rfl

/-- C9: for every argument list, the string the program writes is
non-empty and ends with the default terminator `"\n"`. -/
theorem runOutput_ends_with_newline (argv : List String) :
    runOutput argv ≠ "" ∧ ∃ t, runOutput argv = t ++ "\n" := by
  have h := runOutput_eq argv
  constructor
  · rw [h]
    intro hc
    have hd := congrArg String.data hc
    simp [String.data_append] at hd
  · exact ⟨_, h⟩

/-- C10: `run` is not injective on argument lists — `[""]` and `[]`
produce the same output `"\n"`, and `["a b"]` and `["a", "b"]` produce the
same output `"a b\n"`. -/
theorem run_not_injective :
    ([""] : List String) ≠ [] ∧
    runOutput [""] = "\n" ∧ runOutput [] = "\n" ∧
    (["a b"] : List String) ≠ ["a", "b"] ∧
    runOutput ["a b"] = "a b\n" ∧ runOutput ["a", "b"] = "a b\n" := by
  decide

end Echo
